import Mathlib

/-!
Shallow embedding of the D35 Scan-to-PDF workflow core
(`scanner_app.py` and `scanner_cli.py`): document assembly,
page acquisition/normalization, manual-handoff polling, device
enumeration and session cleanup, with theorems checking the
specification's claims against the embedded code.
-/

namespace D35

/-- A decoded raster image: PIL's `Image` reduced to the data the
assembler reads (`img.size`, i.e. pixel width and height). -/
structure Raster where
  width : Nat
  height : Nat
deriving DecidableEq, Repr

/-- A drawing operation on a reportlab canvas: `c.drawImage(img, x, y,
width=w, height=h)`. -/
inductive DrawOp where
  | image (img : Raster) (x y w h : ℚ)
deriving DecidableEq, Repr

/-- State of a reportlab `canvas.Canvas`: the fixed page size passed to
the constructor, the pages already finished by `showPage`, and the
drawing operations of the page currently open. -/
structure Canvas where
  pagesize : ℚ × ℚ
  completed : List (List DrawOp)
  current : List DrawOp
deriving DecidableEq, Repr

/-- `c.drawImage(img_reader, 0, 0, width=w, height=h)` appends a drawing
operation to the current page. -/
def Canvas.drawImage (c : Canvas) (img : Raster) (x y w h : ℚ) : Canvas :=
  { c with current := c.current ++ [DrawOp.image img x y w h] }

/-- `c.showPage()` closes the current page (a page break) and opens a
fresh empty one. -/
def Canvas.showPage (c : Canvas) : Canvas :=
  { c with completed := c.completed ++ [c.current], current := [] }

/-- The finished output document: page size plus the ordered list of
pages, each a list of drawing operations. -/
structure PdfDoc where
  pagesize : ℚ × ℚ
  pages : List (List DrawOp)
deriving DecidableEq, Repr

/-- `c.save()` writes the document; reportlab flushes the current page
as a final page when something was drawn on it since the last
`showPage`. -/
def Canvas.save (c : Canvas) : PdfDoc :=
  if c.current.isEmpty then ⟨c.pagesize, c.completed⟩
  else ⟨c.pagesize, c.completed ++ [c.current]⟩

/-- The assembly loop shared verbatim by `create_pdf` (scanner_cli.py
164-172) and `ScannerApp.save_as_pdf` (scanner_app.py 478-486):
`for idx, image_path in enumerate(images): draw; if idx < len-1: showPage`.
`n` is the total image count, `idx` the running index. -/
def drawLoop (w h : ℚ) (n : Nat) : Canvas → Nat → List Raster → Canvas
  | c, _, [] => c
  | c, idx, img :: rest =>
      let c := c.drawImage img 0 0 w h
      let c := if idx < n - 1 then c.showPage else c
      drawLoop w h n c (idx + 1) rest

/-- `create_pdf(images, output_file, resolution)` from scanner_cli.py
144-180: empty input is rejected up front (returns `False`, no canvas is
ever constructed, so nothing is written to `output_file`); otherwise the
page geometry is computed from the first image's pixel size and the given
resolution, every image is drawn at that geometry, and the document is
saved. `Option.none` models the no-file-written outcome. -/
def create_pdf (images : List Raster) (resolution : ℚ) : Option PdfDoc :=
  match images with
  | [] => Option.none
  | first :: _ =>
    let page_width : ℚ := first.width / resolution * 72
    let page_height : ℚ := first.height / resolution * 72
    let c : Canvas := ⟨(page_width, page_height), [], []⟩
    some (drawLoop page_width page_height images.length c 0 images).save

/-- The GUI state that `ScannerApp.save_as_pdf` reads: the resolution
dropdown's value at the moment the button is pressed, and the session's
scanned images (here the decoded rasters behind `self.scanned_images`). -/
structure AppState where
  resolution : Nat
  scanned_images : List Raster
deriving DecidableEq, Repr

/-- Changing the resolution dropdown between operations: only the
selected value changes, the scanned pages do not. -/
def setResolution (st : AppState) (r : Nat) : AppState :=
  { st with resolution := r }

/-- `ScannerApp.save_as_pdf` (scanner_app.py 443-488): empty page list is
rejected before anything is created; otherwise the geometry comes from
the first image's size and `int(self.resolution_dropdown.value)` — the
dropdown value read at invocation time — and the same draw loop runs. -/
def save_as_pdf (st : AppState) : Option PdfDoc :=
  match st.scanned_images with
  | [] => Option.none
  | first :: _ =>
    let dpi : ℚ := (st.resolution : ℚ)
    let page_width : ℚ := first.width / dpi * 72
    let page_height : ℚ := first.height / dpi * 72
    let c : Canvas := ⟨(page_width, page_height), [], []⟩
    some (drawLoop page_width page_height st.scanned_images.length c 0
      st.scanned_images).save

/-- Invariant of the draw loop: starting from an open empty page and
index `idx` with `idx + l.length = n`, the loop turns each image into one
page holding exactly its draw operation; all but the last image get a
page break (`showPage`), the last stays on the open page. -/
theorem drawLoop_spec (w h : ℚ) (n : Nat) :
    ∀ (l : List Raster) (idx : Nat) (c : Canvas),
      idx + l.length = n → c.current = [] → ∀ (hne : l ≠ []),
      (drawLoop w h n c idx l).pagesize = c.pagesize ∧
      (drawLoop w h n c idx l).completed =
        c.completed ++ l.dropLast.map (fun i => [DrawOp.image i 0 0 w h]) ∧
      (drawLoop w h n c idx l).current =
        [DrawOp.image (l.getLast hne) 0 0 w h] := by
  intro l
  induction l with
  | nil => intro idx c _ _ hne; exact absurd rfl hne
  | cons img rest ih =>
    intro idx c hn hcur _
    cases rest with
    | nil =>
      have hn1 : idx + 1 = n := by simpa using hn
      have hidx : ¬ idx < n - 1 := by omega
      simp [drawLoop, Canvas.drawImage, hidx, hcur]
    | cons i2 r2 =>
      have hn2 : idx + (r2.length + 2) = n := by simpa using hn
      have hidx : idx < n - 1 := by omega
      have hstep :
          drawLoop w h n c idx (img :: i2 :: r2) =
          drawLoop w h n
            { c with completed := c.completed ++ [c.current ++ [DrawOp.image img 0 0 w h]],
                     current := [] } (idx + 1) (i2 :: r2) := by
        simp [drawLoop, Canvas.drawImage, Canvas.showPage, hidx]
      rw [hstep]
      have hn' : (idx + 1) + (i2 :: r2).length = n := by
        simp only [List.length_cons]; omega
      obtain ⟨h1, h2, h3⟩ := ih (idx + 1)
        { c with completed := c.completed ++ [c.current ++ [DrawOp.image img 0 0 w h]],
                 current := [] } hn' rfl (by simp)
      refine ⟨h1, ?_, ?_⟩
      · rw [h2]; simp [hcur, List.dropLast]
      · rw [h3]; congr 1

/-- The assembled document for a non-empty input: one page per image, in
order, each holding exactly the draw of that image at the full geometry. -/
theorem create_pdf_eq (first : Raster) (rest : List Raster) (resolution : ℚ) :
    create_pdf (first :: rest) resolution =
      some ⟨((first.width : ℚ) / resolution * 72, (first.height : ℚ) / resolution * 72),
        (first :: rest).map (fun i =>
          [DrawOp.image i 0 0 ((first.width : ℚ) / resolution * 72)
            ((first.height : ℚ) / resolution * 72)])⟩ := by
  have hne : (first :: rest) ≠ ([] : List Raster) := by simp
  obtain ⟨h1, h2, h3⟩ := drawLoop_spec
    ((first.width : ℚ) / resolution * 72) ((first.height : ℚ) / resolution * 72)
    (first :: rest).length (first :: rest) 0
    ⟨(((first.width : ℚ) / resolution * 72), ((first.height : ℚ) / resolution * 72)), [], []⟩
    (by simp) rfl hne
  simp only [create_pdf]
  congr 1
  simp only [Canvas.save, h3, List.isEmpty_cons, Bool.false_eq_true, if_false]
  rw [PdfDoc.mk.injEq]
  refine ⟨h1, ?_⟩
  rw [h2]
  simp only [List.nil_append]
  conv_rhs => rw [← List.dropLast_append_getLast hne, List.map_append]
  simp

/-- The GUI save runs the identical algorithm with the dropdown's value
as the resolution. -/
theorem save_as_pdf_eq_create_pdf (st : AppState) :
    save_as_pdf st = create_pdf st.scanned_images (st.resolution : ℚ) := by
  cases h : st.scanned_images with
  | nil => simp [save_as_pdf, create_pdf, h]
  | cons first rest => simp [save_as_pdf, create_pdf, h]

/-- C1: for every non-empty page list and every resolution, assembly
computes the single page geometry `(w/dpi*72, h/dpi*72)` from the first
page's pixel dimensions, draws every page of the output at exactly that
geometry, and the geometry is unchanged if the later pages are replaced
by any other list. -/
theorem c1_geometry_from_first_page (first : Raster) (rest rest' : List Raster)
    (dpi : ℚ) :
    ∃ doc, create_pdf (first :: rest) dpi = some doc ∧
      doc.pagesize = ((first.width : ℚ) / dpi * 72, (first.height : ℚ) / dpi * 72) ∧
      (∀ pg ∈ doc.pages, ∃ img, pg =
        [DrawOp.image img 0 0 ((first.width : ℚ) / dpi * 72)
          ((first.height : ℚ) / dpi * 72)]) ∧
      (create_pdf (first :: rest') dpi).map PdfDoc.pagesize = some doc.pagesize := by
  refine ⟨_, create_pdf_eq first rest dpi, rfl, ?_, ?_⟩
  · intro pg hpg
    simp only [List.mem_map] at hpg
    obtain ⟨img, _, hEq⟩ := hpg
    exact ⟨img, hEq.symm⟩
  · rw [create_pdf_eq first rest' dpi]
    rfl

/-- C2: the assembled document has exactly one page per input raster, in
input order (page `k` holds the draw of image `k` and nothing else), and
a page break (`showPage`) is emitted after every page except the last:
when the loop ends, `rest.length` pages have been closed and the final
page is still open, to be flushed by `save`. -/
theorem c2_one_page_per_input (first : Raster) (rest : List Raster) (dpi : ℚ) :
    ∃ doc, create_pdf (first :: rest) dpi = some doc ∧
      doc.pages.length = (first :: rest).length ∧
      doc.pages = (first :: rest).map (fun i =>
        [DrawOp.image i 0 0 ((first.width : ℚ) / dpi * 72)
          ((first.height : ℚ) / dpi * 72)]) ∧
      (drawLoop ((first.width : ℚ) / dpi * 72) ((first.height : ℚ) / dpi * 72)
          (first :: rest).length
          ⟨(((first.width : ℚ) / dpi * 72), ((first.height : ℚ) / dpi * 72)), [], []⟩
          0 (first :: rest)).completed.length = rest.length ∧
      (drawLoop ((first.width : ℚ) / dpi * 72) ((first.height : ℚ) / dpi * 72)
          (first :: rest).length
          ⟨(((first.width : ℚ) / dpi * 72), ((first.height : ℚ) / dpi * 72)), [], []⟩
          0 (first :: rest)).current ≠ [] := by
  have hne : (first :: rest) ≠ ([] : List Raster) := by simp
  obtain ⟨h1, h2, h3⟩ := drawLoop_spec
    ((first.width : ℚ) / dpi * 72) ((first.height : ℚ) / dpi * 72)
    (first :: rest).length (first :: rest) 0
    ⟨(((first.width : ℚ) / dpi * 72), ((first.height : ℚ) / dpi * 72)), [], []⟩
    (by simp) rfl hne
  refine ⟨_, create_pdf_eq first rest dpi, by simp, rfl, ?_, ?_⟩
  · rw [h2]; simp
  · rw [h3]; simp

/-- C5: assembly with an empty page list fails (`EmptyInput`: CLI prints
"No images to convert!" and returns `False`; the GUI reports "No scanned
pages to save" and returns) before any canvas — hence any output file —
is created: the result is `Option.none`, no document value. -/
theorem c5_empty_input (dpi : ℚ) (st : AppState)
    (h : st.scanned_images = []) :
    create_pdf [] dpi = Option.none ∧ save_as_pdf st = Option.none := by
  constructor
  · rfl
  · rw [save_as_pdf_eq_create_pdf, h]; rfl

/-- Witness for C5 at a concrete empty state. -/
theorem c5_empty_input_witness :
    create_pdf [] 300 = Option.none ∧
      save_as_pdf ⟨300, []⟩ = Option.none :=
  c5_empty_input 300 ⟨300, []⟩ rfl

/-- C10: the GUI's assembly geometry is computed from the resolution
selected at the moment `save_as_pdf` is invoked: after changing the
dropdown to `r`, the geometry is `(w₀/r*72, h₀/r*72)`, and the whole
output document is independent of the resolution that was in effect when
the pages were acquired (`st.resolution` before the change). -/
theorem c10_dpi_read_at_invocation (st : AppState) (r : Nat) (first : Raster)
    (rest : List Raster) (h : st.scanned_images = first :: rest) :
    (save_as_pdf (setResolution st r)).map PdfDoc.pagesize =
      some ((first.width : ℚ) / (r : ℚ) * 72, (first.height : ℚ) / (r : ℚ) * 72) ∧
    save_as_pdf (setResolution st r) = save_as_pdf ⟨r, st.scanned_images⟩ := by
  constructor
  · rw [save_as_pdf_eq_create_pdf]
    simp only [setResolution, h]
    rw [create_pdf_eq]
    rfl
  · rw [save_as_pdf_eq_create_pdf, save_as_pdf_eq_create_pdf]
    simp [setResolution]

/-- Witness for C10: pages scanned while the dropdown read 150 DPI, then
the dropdown changed to 300 before saving; the output is letter-sized
at 300 DPI (612 × 792 pt for a 2550 × 3300 px first page). -/
theorem c10_dpi_read_at_invocation_witness :
    (save_as_pdf (setResolution ⟨150, [⟨2550, 3300⟩]⟩ 300)).map PdfDoc.pagesize =
      some (((2550 : Nat) : ℚ) / ((300 : Nat) : ℚ) * 72,
            ((3300 : Nat) : ℚ) / ((300 : Nat) : ℚ) * 72) ∧
    save_as_pdf (setResolution ⟨150, [⟨2550, 3300⟩]⟩ 300) =
      save_as_pdf ⟨300, [⟨2550, 3300⟩]⟩ :=
  c10_dpi_read_at_invocation ⟨150, [⟨2550, 3300⟩]⟩ 300 ⟨2550, 3300⟩ [] rfl

/-- Witness for C1 at a concrete 300 DPI letter-size scan. -/
theorem c1_geometry_from_first_page_witness :
    ∃ doc, create_pdf [⟨2550, 3300⟩, ⟨100, 200⟩] 300 = some doc ∧
      doc.pagesize = (((2550 : Nat) : ℚ) / 300 * 72, ((3300 : Nat) : ℚ) / 300 * 72) ∧
      (∀ pg ∈ doc.pages, ∃ img, pg =
        [DrawOp.image img 0 0 (((2550 : Nat) : ℚ) / 300 * 72)
          (((3300 : Nat) : ℚ) / 300 * 72)]) ∧
      (create_pdf [⟨2550, 3300⟩, ⟨999, 1⟩] 300).map PdfDoc.pagesize =
        some doc.pagesize :=
  c1_geometry_from_first_page ⟨2550, 3300⟩ [⟨100, 200⟩] [⟨999, 1⟩] 300

/-- Witness for C2 at a concrete three-page input. -/
theorem c2_one_page_per_input_witness :
    ∃ doc, create_pdf [⟨2550, 3300⟩, ⟨2550, 3300⟩, ⟨2550, 3300⟩] 300 = some doc ∧
      doc.pages.length = 3 ∧
      doc.pages = [⟨2550, 3300⟩, ⟨2550, 3300⟩, (⟨2550, 3300⟩ : Raster)].map (fun i =>
        [DrawOp.image i 0 0 (((2550 : Nat) : ℚ) / 300 * 72)
          (((3300 : Nat) : ℚ) / 300 * 72)]) ∧
      (drawLoop (((2550 : Nat) : ℚ) / 300 * 72) (((3300 : Nat) : ℚ) / 300 * 72) 3
          ⟨((((2550 : Nat) : ℚ) / 300 * 72), (((3300 : Nat) : ℚ) / 300 * 72)), [], []⟩
          0 [⟨2550, 3300⟩, ⟨2550, 3300⟩, ⟨2550, 3300⟩]).completed.length = 2 ∧
      (drawLoop (((2550 : Nat) : ℚ) / 300 * 72) (((3300 : Nat) : ℚ) / 300 * 72) 3
          ⟨((((2550 : Nat) : ℚ) / 300 * 72), (((3300 : Nat) : ℚ) / 300 * 72)), [], []⟩
          0 [⟨2550, 3300⟩, ⟨2550, 3300⟩, ⟨2550, 3300⟩]).current ≠ [] := by
  have h := c2_one_page_per_input ⟨2550, 3300⟩ [⟨2550, 3300⟩, ⟨2550, 3300⟩] 300
  simpa using h

/-! ### String primitives

Executable models of the Python string operations the acquisition and
enumeration code uses, defined structurally over the character list of a
`String` so that concrete runs reduce inside the kernel. -/

/-- `s.lower()`. -/
def strLower (s : String) : String := ⟨s.data.map Char.toLower⟩

/-- `s.endswith(suf)`. -/
def strEndsWith (s suf : String) : Bool := suf.data.isSuffixOf s.data

/-- `s.startswith(pre)`. -/
def strStartsWith (s pre : String) : Bool := pre.data.isPrefixOf s.data

/-- Split a character list on a separator character, like Python
`str.split(sep)` for a one-character separator: `split('.')` and
`split('\n')` are the two uses in the source. -/
def splitOnChar (sep : Char) : List Char → List (List Char)
  | [] => [[]]
  | c :: rest =>
    match splitOnChar sep rest with
    | [] => [[]]
    | seg :: segs => if c = sep then [] :: seg :: segs else (c :: seg) :: segs

/-- `s.split('.')[-1]`: Python's last split segment (for a dot-free name
this is the whole name, as in Python). -/
def lastDotSegment (s : String) : String :=
  ⟨(splitOnChar '.' s.data).getLastD []⟩

/-- Python `str.strip()` whitespace test (the whitespace characters that
occur in command output). -/
def isSpaceChar (c : Char) : Bool :=
  c = ' ' || c = '\t' || c = '\n' || c = '\r'

/-- `s.strip()`. -/
def strTrim (s : String) : String :=
  ⟨((s.data.dropWhile isSpaceChar).reverse.dropWhile isSpaceChar).reverse⟩

/-- `s.replace(' ', '_')` — the one `replace` call in the enumerator. -/
def replaceSpaceUnderscore (s : String) : String :=
  ⟨s.data.map (fun c => if c = ' ' then '_' else c)⟩

/-- Substring membership test at the character level: Python `pat in s`. -/
def listContainsSub (pat : List Char) : List Char → Bool
  | [] => pat.isEmpty
  | c :: rest => pat.isPrefixOf (c :: rest) || listContainsSub pat rest

/-- Python `pat in s` on strings. -/
def strContainsSub (s pat : String) : Bool := listContainsSub pat.data s.data

/-- Python `f"{n:03d}"`: zero-pad to width 3 (wider numbers print in
full). -/
def pad3 (n : Nat) : String :=
  if n < 10 then "00" ++ toString n
  else if n < 100 then "0" ++ toString n
  else toString n

/-! ### Filesystem model

The scratch-directory filesystem the acquisition and cleanup code
manipulates: an association list of existing files (path to image
format) plus the set of existing directories. -/

/-- Content format of a file on disk. `corrupt` stands for bytes
`PIL.Image.open` fails to decode (the conversion-error case). -/
inductive ImgFormat where
  | png
  | jpeg
  | tiff
  | pdfFile
  | corrupt
deriving DecidableEq, Repr

/-- Filesystem state: existing files with their content format, and
existing directories. -/
structure FS where
  files : List (String × ImgFormat)
  dirs : List String
deriving DecidableEq, Repr

/-- `os.path.exists` for a file path. -/
def FS.existsFile (fs : FS) (p : String) : Bool :=
  fs.files.any (fun q => q.1 = p)

/-- Content of the file at `p`, if present. -/
def FS.lookup (fs : FS) (p : String) : Option ImgFormat :=
  (fs.files.find? (fun q => q.1 = p)).map Prod.snd

/-- `os.remove`. -/
def FS.remove (fs : FS) (p : String) : FS :=
  { fs with files := fs.files.filter (fun q => q.1 ≠ p) }

/-- Create-or-overwrite a file (`img.save`, `shutil.copy2` target). -/
def FS.write (fs : FS) (p : String) (f : ImgFormat) : FS :=
  { fs with files := (fs.files.filter (fun q => q.1 ≠ p)) ++ [(p, f)] }

/-- `PIL.Image.open`: fails (raises) on a missing or undecodable file. -/
def FS.openImage (fs : FS) (p : String) : Option ImgFormat :=
  match fs.lookup p with
  | Option.none => Option.none
  | some ImgFormat.corrupt => Option.none
  | some f => some f

/-- A path lies inside a directory. -/
def inDir (dir p : String) : Bool := strStartsWith p (dir ++ "/")

/-- Whether any file remains inside `dir` (what makes `os.rmdir` raise). -/
def FS.dirNonempty (fs : FS) (dir : String) : Bool :=
  fs.files.any (fun q => inDir dir q.1)

/-- `os.rmdir` once known to succeed: drop the directory. -/
def FS.rmdir (fs : FS) (dir : String) : FS :=
  { fs with dirs := fs.dirs.filter (fun d => d ≠ dir) }

/-! ### Page acquisition and normalization -/

/-- Session state mutated by `ScannerApp.scan_page`: the lazily created
scratch directory and the ordered page-file list. -/
structure ScanSession where
  scan_dir : Option String
  scanned_images : List String
deriving DecidableEq, Repr

/-- Outcome of the selected acquisition handler inside `scan_page`:
either it returned a file path, or it returned nothing (the
"No scanned file was obtained" guard fires), or it raised (backend
command failure, AppleScript/manual timeout, `NoScanProduced`). -/
inductive AcqResult where
  | ok (path : String)
  | nothingReturned
  | raised
deriving DecidableEq, Repr

/-- `tempfile.mkdtemp` when no scratch directory exists yet (scanner_app.py
292-293): the directory appears on disk. -/
def mkdtempIfNeeded (sd : Option String) (newDir : String) (fs : FS) : FS :=
  match sd with
  | some _ => fs
  | Option.none => { fs with dirs := fs.dirs ++ [newDir] }

/-- `ScannerApp.scan_page` (scanner_app.py 279-339): lazily create the
scratch directory, run the selected handler, then normalize the produced
file to `scan_<NNN>.png` with `NNN = len(self.scanned_images)` zero-padded
— re-encode and delete the original when it is not named `.png`
(deleting only if distinct and still present), `os.rename` it when it is
(raising if the source vanished) — and append the canonical path. Every
failure raises into the surrounding `except`, which reports and leaves
the page list untouched. The returned `Bool` is `true` exactly on the
success path. -/
def scan_page (st : ScanSession) (newDir : String) (acq : AcqResult) (fs : FS) :
    ScanSession × FS × Bool :=
  let dir := st.scan_dir.getD newDir
  let fs0 := mkdtempIfNeeded st.scan_dir newDir fs
  let st1 : ScanSession := { st with scan_dir := some dir }
  match acq with
  | AcqResult.raised => (st1, fs0, false)
  | AcqResult.nothingReturned => (st1, fs0, false)
  | AcqResult.ok path =>
    let png_path := dir ++ "/scan_" ++ pad3 st.scanned_images.length ++ ".png"
    if strEndsWith (strLower path) ".png" = false then
      match fs0.openImage path with
      | Option.none => (st1, fs0, false)
      | some _ =>
        let fs1 := fs0.write png_path ImgFormat.png
        let fs2 := if path ≠ png_path ∧ fs1.existsFile path = true
          then fs1.remove path else fs1
        ({ st1 with scanned_images := st1.scanned_images ++ [png_path] }, fs2, true)
    else
      if path ≠ png_path then
        match fs0.lookup path with
        | Option.none => (st1, fs0, false)
        | some f =>
          ({ st1 with scanned_images := st1.scanned_images ++ [png_path] },
           (fs0.remove path).write png_path f, true)
      else
        ({ st1 with scanned_images := st1.scanned_images ++ [png_path] }, fs0, true)

/-- Outcome of one CLI scan attempt (one iteration of the loop in
`scan_pages`, scanner_cli.py 78-139): the backend command failed
(`continue`), a produced file was located, no file was found
(`continue`), the command timed out (`break`), or some other exception
was raised (`break`). -/
inductive CliAttempt where
  | cmdFailed
  | found (path : String)
  | noFile
  | timeout
  | exc
deriving DecidableEq, Repr

/-- The CLI scan loop of `scan_pages` (scanner_cli.py 78-139): `page_num`
runs from 1; a located file is normalized to
`scan_<page_num:03d>.png` — note the index is the 1-based attempt
number, not the number of pages already collected — and appended;
`continue`-failures skip to the next attempt, `break`-failures end the
loop, and a conversion error (undecodable file) raises out of the `try`
and breaks the loop. -/
def scan_pages_loop (temp_dir : String) :
    List CliAttempt → Nat → List String → FS → List String × FS
  | [], _, acc, fs => (acc, fs)
  | a :: rest, page_num, acc, fs =>
    match a with
    | CliAttempt.cmdFailed => scan_pages_loop temp_dir rest (page_num + 1) acc fs
    | CliAttempt.noFile => scan_pages_loop temp_dir rest (page_num + 1) acc fs
    | CliAttempt.timeout => (acc, fs)
    | CliAttempt.exc => (acc, fs)
    | CliAttempt.found path =>
      let png_path := temp_dir ++ "/scan_" ++ pad3 page_num ++ ".png"
      if strEndsWith (strLower path) ".png" = false then
        match fs.openImage path with
        | Option.none => (acc, fs)
        | some _ =>
          let fs1 := (fs.write png_path ImgFormat.png).remove path
          scan_pages_loop temp_dir rest (page_num + 1) (acc ++ [png_path]) fs1
      else
        match fs.lookup path with
        | Option.none => (acc, fs)
        | some f =>
          scan_pages_loop temp_dir rest (page_num + 1) (acc ++ [png_path])
            ((fs.remove path).write png_path f)

/-- `scan_pages` (scanner_cli.py 65-141): iterate the attempts starting
at page number 1 with an empty collected list. -/
def scan_pages (temp_dir : String) (attempts : List CliAttempt) (fs : FS) :
    List String × FS :=
  scan_pages_loop temp_dir attempts 1 [] fs

/-! ### Manual handoff and AppleScript fallback -/

/-- The acquisition error the manual-handoff wait raises on timeout. -/
inductive ScanError where
  | NoScanProduced
deriving DecidableEq, Repr

/-- The Desktop-file filter of `handle_manual_import` (scanner_app.py
363): lower-cased name ends in a recognized raster/document extension. -/
def recognizedExt (f : String) : Bool :=
  strEndsWith (strLower f) ".png" || strEndsWith (strLower f) ".jpg" ||
    strEndsWith (strLower f) ".jpeg" || strEndsWith (strLower f) ".pdf" ||
    strEndsWith (strLower f) ".tiff" || strEndsWith (strLower f) ".tif"

/-- One polling step: the new files (current listing minus the initial
snapshot) and the first of them with a recognized extension. -/
def newMatch (initial current : List String) : Option String :=
  (current.filter (fun f => initial.contains f = false)).find? recognizedExt

/-- The 30-iteration polling loop of `handle_manual_import` (scanner_app.py
356-371): at each remaining tick `t` (one second apart), list the drop
folder and return the first new recognized file, else keep waiting. -/
def manualLoop (desktop : Nat → List String) (initial : List String) :
    Nat → Nat → Option String
  | _, 0 => Option.none
  | t, fuel + 1 =>
    match newMatch initial (desktop t) with
    | some f => some f
    | Option.none => manualLoop desktop initial (t + 1) fuel

/-- `ScannerApp.handle_manual_import` (scanner_app.py 341-373): snapshot
the Desktop listing, poll once per second for 30 seconds; on the first
new recognized file copy it into the scratch directory as
`temp_<timestamp>.<ext>` (`ext` = Python `name.split('.')[-1]`) and
return that path; on timeout raise `NoScanProduced`. `desktop t` is the
drop-folder listing `t` seconds after the snapshot; `fmt` gives the
content format a dropped file is copied with. -/
def handle_manual_import (desktop : Nat → List String)
    (scan_dir timestamp : String) (fmt : String → ImgFormat) (fs : FS) :
    Except ScanError String × FS :=
  let initial := desktop 0
  match manualLoop desktop initial 1 30 with
  | Option.none => (Except.error ScanError.NoScanProduced, fs)
  | some f =>
    let dest_path := scan_dir ++ "/temp_" ++ timestamp ++ "." ++ lastDotSegment f
    (Except.ok dest_path, fs.write dest_path (fmt f))

/-- Result of the `osascript` automation call in
`handle_applescript_scan`: it completed with an exit code and output, or
it hit the 30-second subprocess timeout. -/
inductive ScriptResult where
  | completed (returncode : Int) (stdout : String)
  | timedOut
deriving DecidableEq, Repr

/-- `ScannerApp.handle_applescript_scan` (scanner_app.py 375-408): run
the AppleScript trigger; whether it reports `scan_initiated`, fails, or
times out, continue into the manual drop-folder wait. -/
def handle_applescript_scan (script : ScriptResult)
    (desktop : Nat → List String) (scan_dir timestamp : String)
    (fmt : String → ImgFormat) (fs : FS) : Except ScanError String × FS :=
  match script with
  | ScriptResult.completed rc out =>
    if rc = 0 ∧ strContainsSub out "scan_initiated" = true then
      handle_manual_import desktop scan_dir timestamp fmt fs
    else
      handle_manual_import desktop scan_dir timestamp fmt fs
  | ScriptResult.timedOut => handle_manual_import desktop scan_dir timestamp fmt fs

/-! ### Device enumeration -/

/-- A scanner dropdown entry built by `refresh_scanners`: the
`device_entry` dict `{id, name, type}`. -/
structure Device where
  id : String
  name : String
  type : String
deriving DecidableEq, Repr

/-- Result of the `imagecapture -list` subprocess call (5-second timeout
in the GUI): it completed with an exit code and output, hit the timeout
(caught by the inner `except subprocess.TimeoutExpired`), or raised some
other exception, which escapes the inner handler. -/
inductive CmdResult where
  | completed (returncode : Int) (stdout : String)
  | timedOut
  | raised
deriving DecidableEq, Repr

/-- Host capture-subsystem state as the enumerators observe it: whether
`which imagecapture` succeeds, and what `imagecapture -list` does. -/
structure Host where
  whichOk : Bool
  icList : CmdResult
deriving DecidableEq, Repr

/-- Line parsing shared by both enumerators (scanner_app.py 199-202,
scanner_cli.py 43-48): split the stripped output on newlines, keep
stripped non-empty lines not starting with `Devices:`. -/
def parseDeviceLines (stdout : String) : List String :=
  (splitOnChar '\n' (strTrim stdout).data).filterMap (fun lineChars =>
    let line : String := ⟨lineChars⟩
    if strTrim line ≠ "" ∧ strStartsWith line "Devices:" = false
    then some (strTrim line) else Option.none)

/-- The AppleScript fallback descriptor always appended (scanner_app.py
219-230). -/
def applescriptDevice : Device :=
  ⟨"image_capture_applescript", "Image Capture (AppleScript)", "scanner"⟩

/-- The manual-import descriptor always appended last (scanner_app.py
233-244). -/
def manualDevice : Device :=
  ⟨"manual_import", "Manual Import (from Desktop)", "manual"⟩

/-- The `try` body of `ScannerApp.refresh_scanners` (scanner_app.py
183-247), entered after the device list has been cleared: native
Image Capture devices first (only when `which` succeeds and the listing
returns code 0 with non-blank output; a listing timeout is swallowed by
the inner handler and falls through to no natives), then the AppleScript
descriptor, then the manual-import descriptor. A non-timeout exception
from the listing call escapes this body — `Option.none` — before the
fallback appends are reached. -/
def refresh_scanners_try (host : Host) : Option (List Device) :=
  if host.whichOk then
    match host.icList with
    | CmdResult.raised => Option.none
    | CmdResult.timedOut => some ([] ++ [applescriptDevice, manualDevice])
    | CmdResult.completed rc out =>
      let native : List Device :=
        if rc = 0 ∧ strTrim out ≠ "" then
          (parseDeviceLines out).map (fun device_name =>
            ⟨"ic_" ++ replaceSpaceUnderscore device_name,
             "Image Capture: " ++ device_name, "scanner"⟩)
        else []
      some (native ++ [applescriptDevice, manualDevice])
  else some ([] ++ [applescriptDevice, manualDevice])

/-- `ScannerApp.refresh_scanners` (scanner_app.py 180-251): the device
list is cleared up front (lines 185-186); if the `try` body raises — a
non-timeout exception from the listing call — the outer
`except Exception` at line 249 only reports the error, so the cleared
(empty) device list is what remains. -/
def refresh_scanners (host : Host) : List Device :=
  match refresh_scanners_try host with
  | Option.none => []
  | some devices => devices

/-- Result of the CLI's `imagecapture -list` call (scanner_cli.py 36-62):
completed, timed out, or raised some other exception. -/
inductive CliCmdResult where
  | completed (returncode : Int) (stdout : String)
  | timedOut
  | raised
deriving DecidableEq, Repr

/-- Host state as the CLI enumerator observes it. -/
structure CliHost where
  whichOk : Bool
  icList : CliCmdResult
deriving DecidableEq, Repr

/-- `list_scanners` (scanner_cli.py 21-62): with no `imagecapture`
command it returns the empty list; a timeout yields `["Auto-detect"]`;
an exception yields the empty list; a successful non-blank listing
yields the parsed device names, otherwise `["Auto-detect"]`. -/
def list_scanners (host : CliHost) : List String :=
  if host.whichOk = false then []
  else
    match host.icList with
    | CliCmdResult.timedOut => ["Auto-detect"]
    | CliCmdResult.raised => []
    | CliCmdResult.completed rc out =>
      if rc = 0 ∧ strTrim out ≠ "" then parseDeviceLines out
      else ["Auto-detect"]

/-! ### Session cleanup -/

/-- The page-removal loop shared by `clear_scans` (scanner_app.py
509-511) and `cleanup_temp_files` (scanner_cli.py 186-188): remove each
tracked page file that still exists. -/
def removePages (pages : List String) (fs : FS) : FS :=
  pages.foldl (fun a p => if a.existsFile p = true then a.remove p else a) fs

/-- `ScannerApp.clear_scans` (scanner_app.py 504-524): when the scratch
directory is recorded and exists, remove every tracked page file that
still exists, then `os.rmdir` the directory — if a file remains inside
(an untracked one), `rmdir` raises, the `except` reports the error and
the state is left as it stands; otherwise reset the page list to empty
and the directory reference to absent. The `Bool` is `false` exactly
when the warning path ran. -/
def clear_scans (st : ScanSession) (fs : FS) : ScanSession × FS × Bool :=
  match st.scan_dir with
  | Option.none => (⟨Option.none, []⟩, fs, true)
  | some d =>
    if fs.dirs.contains d then
      let fs1 := removePages st.scanned_images fs
      if fs1.dirNonempty d then
        (st, fs1, false)
      else
        (⟨Option.none, []⟩, fs1.rmdir d, true)
    else (⟨Option.none, []⟩, fs, true)

/-- `cleanup_temp_files` (scanner_cli.py 183-195): remove each tracked
image that exists, then `os.rmdir` the scratch directory if it exists; a
remaining untracked file makes `rmdir` raise, caught as a printed
warning (`false`). -/
def cleanup_temp_files (temp_dir : String) (images : List String) (fs : FS) :
    FS × Bool :=
  let fs1 := removePages images fs
  if fs1.dirs.contains temp_dir then
    if fs1.dirNonempty temp_dir then (fs1, false)
    else (fs1.rmdir temp_dir, true)
  else (fs1, true)

/-! ### Theorems on acquisition, enumeration and cleanup -/

theorem FS.lookup_write_self (fs : FS) (p : String) (f : ImgFormat) :
    (fs.write p f).lookup p = some f := by
  simp only [FS.write, FS.lookup, List.find?_append]
  have h : (fs.files.filter (fun q => q.1 ≠ p)).find? (fun q => q.1 = p) = Option.none := by
    apply List.find?_eq_none.mpr
    intro x hx
    have := (List.mem_filter.mp hx).2
    simpa using this
  rw [h]
  simp

theorem find?_filter_ne (l : List (String × ImgFormat)) (p q : String) (h : q ≠ p) :
    (l.filter (fun x => x.1 ≠ p)).find? (fun x => x.1 = q) =
      l.find? (fun x => x.1 = q) := by
  induction l with
  | nil => rfl
  | cons a l ih =>
    rw [List.filter_cons]
    by_cases hap : a.1 = p
    · have haq : ¬ a.1 = q := by rw [hap]; exact h.symm
      rw [if_neg (by simp [hap]), ih, List.find?_cons_of_neg l (by simp [haq])]
    · rw [if_pos (by simp [hap])]
      by_cases haq : a.1 = q
      · rw [List.find?_cons_of_pos (List.filter (fun x => decide (x.1 ≠ p)) l) (by simp [haq]),
          List.find?_cons_of_pos l (by simp [haq])]
      · rw [List.find?_cons_of_neg (List.filter (fun x => decide (x.1 ≠ p)) l) (by simp [haq]),
          List.find?_cons_of_neg l (by simp [haq]), ih]

theorem any_filter_ne (l : List (String × ImgFormat)) (p q : String) (h : q ≠ p) :
    ((l.filter (fun x => x.1 ≠ p)).any (fun x => x.1 = q)) =
      l.any (fun x => x.1 = q) := by
  induction l with
  | nil => rfl
  | cons a l ih =>
    rw [List.filter_cons]
    by_cases hap : a.1 = p
    · have haq : ¬ a.1 = q := by rw [hap]; exact h.symm
      rw [if_neg (by simp [hap]), ih, List.any_cons]
      simp [haq]
    · rw [if_pos (by simp [hap]), List.any_cons, List.any_cons, ih]

theorem FS.lookup_remove_ne (fs : FS) (p q : String) (h : q ≠ p) :
    (fs.remove p).lookup q = fs.lookup q := by
  simp only [FS.remove, FS.lookup]
  rw [find?_filter_ne fs.files p q h]

theorem FS.lookup_write_ne (fs : FS) (p q : String) (f : ImgFormat) (h : q ≠ p) :
    (fs.write p f).lookup q = fs.lookup q := by
  simp only [FS.write, FS.lookup, List.find?_append]
  rw [find?_filter_ne fs.files p q h]
  have h2 : ([(p, f)].find? (fun x => x.1 = q)) = Option.none := by
    simp [h.symm]
  rw [h2]
  cases fs.files.find? (fun x => x.1 = q) <;> rfl

theorem FS.existsFile_remove_self (fs : FS) (p : String) :
    (fs.remove p).existsFile p = false := by
  simp only [FS.remove, FS.existsFile]
  rw [List.any_eq_false]
  intro x hx
  have := (List.mem_filter.mp hx).2
  simpa using this

theorem FS.existsFile_write_ne (fs : FS) (p q : String) (f : ImgFormat) (h : q ≠ p) :
    (fs.write p f).existsFile q = fs.existsFile q := by
  simp only [FS.write, FS.existsFile, List.any_append]
  have h2 : ([(p, f)].any (fun x => x.1 = q)) = false := by
    simp [h.symm]
  rw [h2, Bool.or_false]
  exact any_filter_ne fs.files p q h

theorem FS.existsFile_remove_ne (fs : FS) (p q : String) (h : q ≠ p) :
    (fs.remove p).existsFile q = fs.existsFile q := by
  simp only [FS.remove, FS.existsFile]
  exact any_filter_ne fs.files p q h

theorem mkdtempIfNeeded_files (sd : Option String) (newDir : String) (fs : FS) :
    (mkdtempIfNeeded sd newDir fs).files = fs.files := by
  cases sd <;> rfl

theorem FS.lookup_eq_of_files {fs₁ fs₂ : FS} (h : fs₁.files = fs₂.files)
    (p : String) : fs₁.lookup p = fs₂.lookup p := by
  simp [FS.lookup, h]

theorem FS.existsFile_eq_of_files {fs₁ fs₂ : FS} (h : fs₁.files = fs₂.files)
    (p : String) : fs₁.existsFile p = fs₂.existsFile p := by
  simp [FS.existsFile, h]

theorem FS.openImage_eq_of_files {fs₁ fs₂ : FS} (h : fs₁.files = fs₂.files)
    (p : String) : fs₁.openImage p = fs₂.openImage p := by
  simp [FS.openImage, FS.lookup_eq_of_files h]

/-- A failed `scan_page` call leaves the page list exactly as it was. -/
theorem scan_page_fail_unchanged (st : ScanSession) (newDir : String)
    (acq : AcqResult) (fs : FS)
    (hfail : (scan_page st newDir acq fs).2.2 = false) :
    (scan_page st newDir acq fs).1.scanned_images = st.scanned_images := by
  cases acq with
  | raised => rfl
  | nothingReturned => rfl
  | ok path =>
    cases hE : strEndsWith (strLower path) ".png" with
    | false =>
      cases hop : (mkdtempIfNeeded st.scan_dir newDir fs).openImage path with
      | none => simp [scan_page, hE, hop]
      | some f => simp [scan_page, hE, hop] at hfail
    | true =>
      by_cases hne : path =
          st.scan_dir.getD newDir ++ "/scan_" ++ pad3 st.scanned_images.length ++ ".png"
      · have hcond : ¬ (path ≠
            st.scan_dir.getD newDir ++ "/scan_" ++ pad3 st.scanned_images.length ++ ".png") := by
          simp [hne]
        simp [scan_page, hE, hcond] at hfail
      · cases hlk : (mkdtempIfNeeded st.scan_dir newDir fs).lookup path with
        | none => simp [scan_page, hE, hne, hlk]
        | some f => simp [scan_page, hE, hne, hlk] at hfail

/-- A successful `scan_page` call: the handler returned a path, the page
list grows by exactly the canonical entry
`<scratch>/scan_<pad3 (previous count)>.png`, that entry holds PNG
content when the source was re-encoded (and the distinct source is
gone), and a distinct already-`.png`-named source is renamed onto the
canonical path keeping its content. -/
theorem scan_page_ok_spec (st : ScanSession) (newDir : String) (acq : AcqResult)
    (fs : FS) (hok : (scan_page st newDir acq fs).2.2 = true) :
    ∃ path, acq = AcqResult.ok path ∧
      (scan_page st newDir acq fs).1.scan_dir = some (st.scan_dir.getD newDir) ∧
      (scan_page st newDir acq fs).1.scanned_images =
        st.scanned_images ++
          [st.scan_dir.getD newDir ++ "/scan_" ++ pad3 st.scanned_images.length ++ ".png"] ∧
      (strEndsWith (strLower path) ".png" = false →
        (scan_page st newDir acq fs).2.1.lookup
          (st.scan_dir.getD newDir ++ "/scan_" ++ pad3 st.scanned_images.length ++ ".png")
          = some ImgFormat.png) ∧
      (strEndsWith (strLower path) ".png" = true →
        path ≠ st.scan_dir.getD newDir ++ "/scan_" ++ pad3 st.scanned_images.length ++ ".png" →
        ∃ f, fs.lookup path = some f ∧
          (scan_page st newDir acq fs).2.1.lookup
            (st.scan_dir.getD newDir ++ "/scan_" ++ pad3 st.scanned_images.length ++ ".png")
            = some f) ∧
      (path ≠ st.scan_dir.getD newDir ++ "/scan_" ++ pad3 st.scanned_images.length ++ ".png" →
        (scan_page st newDir acq fs).2.1.existsFile path = false) := by
  cases acq with
  | raised => simp [scan_page] at hok
  | nothingReturned => simp [scan_page] at hok
  | ok path =>
    refine ⟨path, rfl, ?_⟩
    have hfiles : (mkdtempIfNeeded st.scan_dir newDir fs).files = fs.files :=
      mkdtempIfNeeded_files _ _ _
    cases hE : strEndsWith (strLower path) ".png" with
    | false =>
      cases hop : (mkdtempIfNeeded st.scan_dir newDir fs).openImage path with
      | none => simp [scan_page, hE, hop] at hok
      | some f =>
        have heq : scan_page st newDir (AcqResult.ok path) fs =
            (⟨some (st.scan_dir.getD newDir),
              st.scanned_images ++
                [st.scan_dir.getD newDir ++ "/scan_" ++
                  pad3 st.scanned_images.length ++ ".png"]⟩,
             (if path ≠ st.scan_dir.getD newDir ++ "/scan_" ++
                    pad3 st.scanned_images.length ++ ".png" ∧
                  ((mkdtempIfNeeded st.scan_dir newDir fs).write
                    (st.scan_dir.getD newDir ++ "/scan_" ++
                      pad3 st.scanned_images.length ++ ".png")
                    ImgFormat.png).existsFile path = true
               then ((mkdtempIfNeeded st.scan_dir newDir fs).write
                    (st.scan_dir.getD newDir ++ "/scan_" ++
                      pad3 st.scanned_images.length ++ ".png")
                    ImgFormat.png).remove path
               else (mkdtempIfNeeded st.scan_dir newDir fs).write
                    (st.scan_dir.getD newDir ++ "/scan_" ++
                      pad3 st.scanned_images.length ++ ".png")
                    ImgFormat.png),
             true) := by
          simp [scan_page, hE, hop]
        rw [heq]
        refine ⟨rfl, rfl, ?_, ?_, ?_⟩
        · intro _
          split
          · rename_i hcond
            rw [FS.lookup_remove_ne _ _ _ (Ne.symm hcond.1), FS.lookup_write_self]
          · rw [FS.lookup_write_self]
        · intro hE2 _
          simp [hE] at hE2
        · intro hne2
          split
          · exact FS.existsFile_remove_self _ _
          · rename_i hcond
            rw [not_and] at hcond
            simpa using hcond hne2
    | true =>
      by_cases hne : path =
          st.scan_dir.getD newDir ++ "/scan_" ++ pad3 st.scanned_images.length ++ ".png"
      · have hcond : ¬ (path ≠
            st.scan_dir.getD newDir ++ "/scan_" ++ pad3 st.scanned_images.length ++ ".png") := by
          simp [hne]
        have heq : scan_page st newDir (AcqResult.ok path) fs =
            (⟨some (st.scan_dir.getD newDir),
              st.scanned_images ++
                [st.scan_dir.getD newDir ++ "/scan_" ++
                  pad3 st.scanned_images.length ++ ".png"]⟩,
             mkdtempIfNeeded st.scan_dir newDir fs, true) := by
          simp [scan_page, hE, hcond]
        rw [heq]
        refine ⟨rfl, rfl, ?_, ?_, ?_⟩
        · intro hE2
          simp [hE] at hE2
        · intro _ hcontra; exact absurd hne hcontra
        · intro hcontra; exact absurd hne hcontra
      · cases hlk : (mkdtempIfNeeded st.scan_dir newDir fs).lookup path with
        | none => simp [scan_page, hE, hne, hlk] at hok
        | some f =>
          have heq : scan_page st newDir (AcqResult.ok path) fs =
              (⟨some (st.scan_dir.getD newDir),
                st.scanned_images ++
                  [st.scan_dir.getD newDir ++ "/scan_" ++
                    pad3 st.scanned_images.length ++ ".png"]⟩,
               ((mkdtempIfNeeded st.scan_dir newDir fs).remove path).write
                 (st.scan_dir.getD newDir ++ "/scan_" ++
                   pad3 st.scanned_images.length ++ ".png") f,
               true) := by
            simp [scan_page, hE, hne, hlk]
          rw [heq]
          refine ⟨rfl, rfl, ?_, ?_, ?_⟩
          · intro hE2
            simp [hE] at hE2
          · intro _ _
            refine ⟨f, ?_, ?_⟩
            · rw [← FS.lookup_eq_of_files hfiles]; exact hlk
            · rw [FS.lookup_write_self]
          · intro _
            rw [FS.existsFile_write_ne _ _ _ _ hne, FS.existsFile_remove_self]

/-- C7 counterexample: the CLI enumerator returns the empty list — not a
list containing a manual-handoff descriptor — when the host has no
`imagecapture` command, contradicting "never returns an empty list for
every host state". -/
theorem c7_counterexample :
    list_scanners ⟨false, CliCmdResult.timedOut⟩ = [] := rfl

/-- C7 (amended): the GUI enumerator returns its descriptors
native-first (in subsystem report order), then the AppleScript
descriptor, then the manual-import descriptor last — in particular never
an empty list — for every host state in which the listing call completes
or times out, including an unreachable subsystem (`which` failing); but
when the listing call raises a non-timeout exception, the outer handler
catches it after the device list was cleared and before the fallbacks
are appended, so the GUI list is empty too. The CLI's `list_scanners`
returns the empty list when the capture command is absent (see the
counterexample) and never includes automation or manual descriptors. -/
theorem c7_enumeration_order (host : Host) :
    ((host.whichOk = true → host.icList ≠ CmdResult.raised) →
      refresh_scanners host ≠ [] ∧
      (refresh_scanners host).getLast? = some manualDevice ∧
      ∃ native : List Device,
        refresh_scanners host = native ++ [applescriptDevice, manualDevice] ∧
        (∀ rc out, host.whichOk = true → host.icList = CmdResult.completed rc out →
          rc = 0 → strTrim out ≠ "" →
          native = (parseDeviceLines out).map (fun device_name =>
            ⟨"ic_" ++ replaceSpaceUnderscore device_name,
             "Image Capture: " ++ device_name, "scanner"⟩)) ∧
        (host.whichOk = false → native = []) ∧
        (host.icList = CmdResult.timedOut → native = [])) ∧
    (host.whichOk = true → host.icList = CmdResult.raised →
      refresh_scanners host = []) := by
  obtain ⟨w, ic⟩ := host
  have hlast : ∀ native : List Device,
      (native ++ [applescriptDevice, manualDevice]).getLast? = some manualDevice := by
    intro native; simp
  constructor
  · intro hnr
    cases w with
    | false =>
      refine ⟨by simp [refresh_scanners, refresh_scanners_try], ?_, [],
        by simp [refresh_scanners, refresh_scanners_try], ?_, ?_, ?_⟩
      · simpa [refresh_scanners, refresh_scanners_try] using hlast []
      · intro rc out hw; exact absurd hw (by simp)
      · intro _; rfl
      · intro _; rfl
    | true =>
      cases ic with
      | raised => exact absurd rfl (hnr rfl)
      | timedOut =>
        refine ⟨by simp [refresh_scanners, refresh_scanners_try], ?_, [],
          by simp [refresh_scanners, refresh_scanners_try], ?_, ?_, ?_⟩
        · simpa [refresh_scanners, refresh_scanners_try] using hlast []
        · intro rc out _ hic; exact absurd hic (by simp)
        · intro hw; exact absurd hw (by simp)
        · intro _; rfl
      | completed rc out =>
        by_cases hc : rc = 0 ∧ strTrim out ≠ ""
        · refine ⟨by simp [refresh_scanners, refresh_scanners_try, hc], ?_,
            (parseDeviceLines out).map (fun device_name =>
              ⟨"ic_" ++ replaceSpaceUnderscore device_name,
               "Image Capture: " ++ device_name, "scanner"⟩),
            by simp [refresh_scanners, refresh_scanners_try, hc], ?_, ?_, ?_⟩
          · simpa [refresh_scanners, refresh_scanners_try, hc] using hlast _
          · intro rc' out' _ hic _ _
            injection hic with h1 h2
            rw [h2]
          · intro hw; exact absurd hw (by simp)
          · intro hic; exact absurd hic (by simp)
        · refine ⟨by simp [refresh_scanners, refresh_scanners_try, hc], ?_, [],
            by simp [refresh_scanners, refresh_scanners_try, hc], ?_, ?_, ?_⟩
          · simpa [refresh_scanners, refresh_scanners_try, hc] using hlast []
          · intro rc' out' _ hic h0 hne
            injection hic with h1 h2
            rw [← h1] at h0; rw [← h2] at hne
            exact absurd ⟨h0, hne⟩ hc
          · intro hw; exact absurd hw (by simp)
          · intro hic; exact absurd hic (by simp)
  · intro hw hr
    subst hw
    subst hr
    rfl

/-- Witness for C7: a host reporting two native devices (a completed,
non-raising listing), and a host whose listing call raises a non-timeout
exception, which leaves the GUI device list empty. -/
theorem c7_enumeration_order_witness :
    (refresh_scanners ⟨true, CmdResult.completed 0 "EPSON D35\nCanon X"⟩ ≠ [] ∧
    (refresh_scanners ⟨true, CmdResult.completed 0 "EPSON D35\nCanon X"⟩).getLast? =
      some manualDevice ∧
    ∃ native : List Device,
      refresh_scanners ⟨true, CmdResult.completed 0 "EPSON D35\nCanon X"⟩ =
        native ++ [applescriptDevice, manualDevice] ∧
      (∀ rc out, (true : Bool) = true →
        CmdResult.completed 0 "EPSON D35\nCanon X" = CmdResult.completed rc out →
        rc = 0 → strTrim out ≠ "" →
        native = (parseDeviceLines out).map (fun device_name =>
          ⟨"ic_" ++ replaceSpaceUnderscore device_name,
           "Image Capture: " ++ device_name, "scanner"⟩)) ∧
      ((true : Bool) = false → native = []) ∧
      (CmdResult.completed 0 "EPSON D35\nCanon X" = CmdResult.timedOut → native = [])) ∧
    refresh_scanners ⟨true, CmdResult.raised⟩ = [] := by
  constructor
  · exact (c7_enumeration_order
      ⟨true, CmdResult.completed 0 "EPSON D35\nCanon X"⟩).1 (by decide)
  · exact (c7_enumeration_order ⟨true, CmdResult.raised⟩).2 rfl rfl

/-- Removing pages never touches the directory set. -/
theorem removePages_dirs : ∀ (pages : List String) (fs : FS),
    (removePages pages fs).dirs = fs.dirs := by
  intro pages
  induction pages with
  | nil => intro fs; rfl
  | cons p ps ih =>
    intro fs
    simp only [removePages, List.foldl_cons]
    split <;> exact ih _

/-- Membership in the files left after the removal loop. -/
theorem mem_removePages : ∀ (pages : List String) (fs : FS) (q : String × ImgFormat),
    q ∈ (removePages pages fs).files ↔ q ∈ fs.files ∧ q.1 ∉ pages := by
  intro pages
  induction pages with
  | nil => intro fs q; simp [removePages]
  | cons p ps ih =>
    intro fs q
    have hstep : removePages (p :: ps) fs =
        removePages ps (if fs.existsFile p = true then fs.remove p else fs) := by
      simp [removePages]
    rw [hstep, ih]
    have hmem : q ∈ (if fs.existsFile p = true then fs.remove p else fs).files ↔
        q ∈ fs.files ∧ ¬ q.1 = p := by
      split
      · simp [FS.remove, List.mem_filter]
      · rename_i hex
        constructor
        · intro hq
          refine ⟨hq, ?_⟩
          intro hqp
          have : fs.existsFile p = true := by
            simp only [FS.existsFile, List.any_eq_true]
            exact ⟨q, hq, by simp [hqp]⟩
          exact hex this
        · exact fun h => h.1
    rw [hmem]
    simp only [List.mem_cons]
    tauto

/-- Every tracked page is gone after the removal loop. -/
theorem removePages_existsFile (pages : List String) (fs : FS) (p : String)
    (hp : p ∈ pages) : (removePages pages fs).existsFile p = false := by
  simp only [FS.existsFile]
  rw [List.any_eq_false]
  intro q hq
  rw [mem_removePages] at hq
  simp only [decide_eq_true_eq]
  intro hqp
  exact hq.2 (hqp ▸ hp)

/-- If every file inside `d` is tracked, the scratch directory is empty
after the removal loop. -/
theorem removePages_dirNonempty (pages : List String) (fs : FS) (d : String)
    (hall : ∀ q ∈ fs.files, inDir d q.1 = true → q.1 ∈ pages) :
    (removePages pages fs).dirNonempty d = false := by
  simp only [FS.dirNonempty]
  rw [List.any_eq_false]
  intro q hq
  rw [mem_removePages] at hq
  simp only [Bool.not_eq_true]
  cases hin : inDir d q.1 with
  | false => rfl
  | true => exact absurd (hall q hq.1 hin) hq.2

/-- If some file inside `d` is untracked, the directory is still
non-empty after the removal loop. -/
theorem removePages_dirNonempty_true (pages : List String) (fs : FS) (d : String)
    (q : String × ImgFormat) (hq : q ∈ fs.files) (hin : inDir d q.1 = true)
    (hout : q.1 ∉ pages) :
    (removePages pages fs).dirNonempty d = true := by
  simp only [FS.dirNonempty]
  rw [List.any_eq_true]
  exact ⟨q, (mem_removePages pages fs q).mpr ⟨hq, hout⟩, hin⟩

/-- C8: clearing a session whose scratch directory holds only tracked
files removes every tracked page file and then the directory, leaving
the page list empty and the directory reference absent; a tracked file
that is already missing is not an error (nothing in the hypotheses
requires tracked files to exist); and when an untracked file is left in
the directory, the directory removal fails and is caught — the call
returns a warning flag instead of crashing, leaving the session state as
it was. The CLI `cleanup_temp_files` behaves the same way on its removal
loop and `rmdir`. -/
theorem c8_clear_session (st : ScanSession) (fs : FS) (d : String)
    (hd : st.scan_dir = some d) (hdir : d ∈ fs.dirs) :
    ((∀ q ∈ fs.files, inDir d q.1 = true → q.1 ∈ st.scanned_images) →
      (clear_scans st fs).1.scanned_images = [] ∧
      (clear_scans st fs).1.scan_dir = Option.none ∧
      (clear_scans st fs).2.2 = true ∧
      (∀ p ∈ st.scanned_images, (clear_scans st fs).2.1.existsFile p = false) ∧
      d ∉ (clear_scans st fs).2.1.dirs) ∧
    ((∃ q ∈ fs.files, inDir d q.1 = true ∧ q.1 ∉ st.scanned_images) →
      (clear_scans st fs).2.2 = false ∧ (clear_scans st fs).1 = st) ∧
    (∀ (temp_dir : String) (images : List String) (fs2 : FS),
      ((∀ q ∈ fs2.files, inDir temp_dir q.1 = true → q.1 ∈ images) →
        (∀ p ∈ images, (cleanup_temp_files temp_dir images fs2).1.existsFile p = false) ∧
        temp_dir ∉ (cleanup_temp_files temp_dir images fs2).1.dirs ∧
        (cleanup_temp_files temp_dir images fs2).2 = true) ∧
      (temp_dir ∈ fs2.dirs →
        (∃ q ∈ fs2.files, inDir temp_dir q.1 = true ∧ q.1 ∉ images) →
        (cleanup_temp_files temp_dir images fs2).2 = false)) := by
  have hcont : fs.dirs.contains d = true := by simpa using hdir
  refine ⟨?_, ?_, ?_⟩
  · intro hall
    have hne : (removePages st.scanned_images fs).dirNonempty d = false :=
      removePages_dirNonempty _ _ _ hall
    simp only [clear_scans, hd, hcont, if_true, hne, Bool.false_eq_true, if_false]
    refine ⟨by trivial, by trivial, by trivial, ?_, ?_⟩
    · intro p hp
      simpa [FS.rmdir, FS.existsFile] using
        removePages_existsFile st.scanned_images fs p hp
    · simp [FS.rmdir]
  · intro hex
    obtain ⟨q, hq, hin, hout⟩ := hex
    have htrue := removePages_dirNonempty_true st.scanned_images fs d q hq hin hout
    simp [clear_scans, hd, hcont, htrue, hdir]
  · intro temp_dir images fs2
    constructor
    · intro hall
      have hne : (removePages images fs2).dirNonempty temp_dir = false :=
        removePages_dirNonempty _ _ _ hall
      by_cases hcd : (removePages images fs2).dirs.contains temp_dir = true
      · simp only [cleanup_temp_files, hcd, if_true, hne, Bool.false_eq_true, if_false]
        refine ⟨?_, ?_, by trivial⟩
        · intro p hp
          simpa [FS.rmdir, FS.existsFile] using removePages_existsFile images fs2 p hp
        · simp [FS.rmdir]
      · have hcd' : (removePages images fs2).dirs.contains temp_dir = false := by
          simpa using hcd
        simp only [cleanup_temp_files, hcd', Bool.false_eq_true, if_false]
        refine ⟨?_, ?_, by trivial⟩
        · intro p hp
          exact removePages_existsFile images fs2 p hp
        · simpa using hcd
    · intro hmem hex
      obtain ⟨q, hq, hin, hout⟩ := hex
      have hcd : (removePages images fs2).dirs.contains temp_dir = true := by
        rw [removePages_dirs]; simpa using hmem
      have hmem2 : temp_dir ∈ (removePages images fs2).dirs := by
        rw [removePages_dirs]; exact hmem
      have htrue := removePages_dirNonempty_true images fs2 temp_dir q hq hin hout
      simp [cleanup_temp_files, hcd, htrue, hmem2]

/-- Witness for C8: clearing a one-page session under a fully tracked
scratch directory, and the warning branch when an untracked file
remains. -/
theorem c8_clear_session_witness :
    ((clear_scans ⟨some "/t", ["/t/scan_000.png"]⟩
        ⟨[("/t/scan_000.png", ImgFormat.png)], ["/t"]⟩).1.scanned_images = [] ∧
      (clear_scans ⟨some "/t", ["/t/scan_000.png"]⟩
        ⟨[("/t/scan_000.png", ImgFormat.png)], ["/t"]⟩).1.scan_dir = Option.none ∧
      (clear_scans ⟨some "/t", ["/t/scan_000.png"]⟩
        ⟨[("/t/scan_000.png", ImgFormat.png)], ["/t"]⟩).2.2 = true ∧
      (∀ p ∈ (["/t/scan_000.png"] : List String),
        (clear_scans ⟨some "/t", ["/t/scan_000.png"]⟩
          ⟨[("/t/scan_000.png", ImgFormat.png)], ["/t"]⟩).2.1.existsFile p = false) ∧
      "/t" ∉ (clear_scans ⟨some "/t", ["/t/scan_000.png"]⟩
        ⟨[("/t/scan_000.png", ImgFormat.png)], ["/t"]⟩).2.1.dirs) ∧
    ((clear_scans ⟨some "/t", []⟩
        ⟨[("/t/untracked.bin", ImgFormat.corrupt)], ["/t"]⟩).2.2 = false ∧
      (clear_scans ⟨some "/t", []⟩
        ⟨[("/t/untracked.bin", ImgFormat.corrupt)], ["/t"]⟩).1 = ⟨some "/t", []⟩) := by
  constructor
  · exact (c8_clear_session ⟨some "/t", ["/t/scan_000.png"]⟩
      ⟨[("/t/scan_000.png", ImgFormat.png)], ["/t"]⟩ "/t" rfl (by decide)).1 (by decide)
  · exact ((c8_clear_session ⟨some "/t", []⟩
      ⟨[("/t/untracked.bin", ImgFormat.corrupt)], ["/t"]⟩ "/t" rfl (by decide)).2.1
      (by decide))

/-- The CLI scan loop only ever appends to its accumulator. -/
theorem scan_pages_loop_acc (temp_dir : String) :
    ∀ (attempts : List CliAttempt) (p : Nat) (acc : List String) (fs : FS),
      (scan_pages_loop temp_dir attempts p acc fs).1 =
        acc ++ (scan_pages_loop temp_dir attempts p [] fs).1 := by
  intro attempts
  induction attempts with
  | nil => intro p acc fs; simp [scan_pages_loop]
  | cons a rest ih =>
    intro p acc fs
    cases a with
    | cmdFailed => simpa [scan_pages_loop] using ih (p + 1) acc fs
    | noFile => simpa [scan_pages_loop] using ih (p + 1) acc fs
    | timeout => simp [scan_pages_loop]
    | exc => simp [scan_pages_loop]
    | found path =>
      cases hE : strEndsWith (strLower path) ".png" with
      | false =>
        cases hop : fs.openImage path with
        | none => simp [scan_pages_loop, hE, hop]
        | some f =>
          simp [scan_pages_loop, hE, hop]
          rw [ih (p + 1) (acc ++ [temp_dir ++ "/scan_" ++ pad3 p ++ ".png"]),
            ih (p + 1) [temp_dir ++ "/scan_" ++ pad3 p ++ ".png"]]
          simp
      | true =>
        cases hlk : fs.lookup path with
        | none => simp [scan_pages_loop, hE, hlk]
        | some f =>
          simp [scan_pages_loop, hE, hlk]
          rw [ih (p + 1) (acc ++ [temp_dir ++ "/scan_" ++ pad3 p ++ ".png"]),
            ih (p + 1) [temp_dir ++ "/scan_" ++ pad3 p ++ ".png"]]
          simp

/-- A successful CLI attempt at page number `p` appends exactly
`scan_<pad3 p>.png` — indexed by the 1-based attempt number. -/
theorem scan_pages_found_step (temp_dir : String) (rest : List CliAttempt)
    (p : Nat) (acc : List String) (fs : FS) (path : String) :
    (strEndsWith (strLower path) ".png" = false →
      ∀ f, fs.openImage path = some f →
      (scan_pages_loop temp_dir (CliAttempt.found path :: rest) p acc fs).1 =
        acc ++ [temp_dir ++ "/scan_" ++ pad3 p ++ ".png"] ++
          (scan_pages_loop temp_dir rest (p + 1) []
            ((fs.write (temp_dir ++ "/scan_" ++ pad3 p ++ ".png")
              ImgFormat.png).remove path)).1) ∧
    (strEndsWith (strLower path) ".png" = true →
      ∀ f, fs.lookup path = some f →
      (scan_pages_loop temp_dir (CliAttempt.found path :: rest) p acc fs).1 =
        acc ++ [temp_dir ++ "/scan_" ++ pad3 p ++ ".png"] ++
          (scan_pages_loop temp_dir rest (p + 1) []
            ((fs.remove path).write (temp_dir ++ "/scan_" ++ pad3 p ++ ".png") f)).1) := by
  constructor
  · intro hE f hop
    simp [scan_pages_loop, hE, hop]
    rw [scan_pages_loop_acc temp_dir rest (p + 1)
      (acc ++ [temp_dir ++ "/scan_" ++ pad3 p ++ ".png"])]
    simp
  · intro hE f hlk
    simp [scan_pages_loop, hE, hlk]
    rw [scan_pages_loop_acc temp_dir rest (p + 1)
      (acc ++ [temp_dir ++ "/scan_" ++ pad3 p ++ ".png"])]
    simp

/-- C4: a failed acquisition leaves the page list exactly as it was. In
the GUI, any `scan_page` call whose success flag is `false` (handler
raised, nothing returned, undecodable file, vanished source) returns the
original `scanned_images`. In the CLI loop, a backend failure and a
missing output file skip to the next attempt with the collected list
untouched, a timeout and any other exception end the loop returning the
collected list as is, and a located file that cannot be decoded or has
vanished ends the loop the same way. -/
theorem c4_failed_acquisition_unchanged (st : ScanSession) (newDir : String)
    (acq : AcqResult) (fs : FS)
    (hfail : (scan_page st newDir acq fs).2.2 = false) :
    (scan_page st newDir acq fs).1.scanned_images = st.scanned_images ∧
    (∀ (temp_dir : String) (rest : List CliAttempt) (p : Nat)
        (acc : List String) (fs2 : FS),
      scan_pages_loop temp_dir (CliAttempt.cmdFailed :: rest) p acc fs2 =
        scan_pages_loop temp_dir rest (p + 1) acc fs2 ∧
      scan_pages_loop temp_dir (CliAttempt.noFile :: rest) p acc fs2 =
        scan_pages_loop temp_dir rest (p + 1) acc fs2 ∧
      scan_pages_loop temp_dir (CliAttempt.timeout :: rest) p acc fs2 = (acc, fs2) ∧
      scan_pages_loop temp_dir (CliAttempt.exc :: rest) p acc fs2 = (acc, fs2) ∧
      (∀ path, strEndsWith (strLower path) ".png" = false →
        fs2.openImage path = Option.none →
        scan_pages_loop temp_dir (CliAttempt.found path :: rest) p acc fs2 = (acc, fs2)) ∧
      (∀ path, strEndsWith (strLower path) ".png" = true →
        fs2.lookup path = Option.none →
        scan_pages_loop temp_dir (CliAttempt.found path :: rest) p acc fs2 = (acc, fs2))) := by
  refine ⟨scan_page_fail_unchanged st newDir acq fs hfail, ?_⟩
  intro temp_dir rest p acc fs2
  refine ⟨rfl, rfl, rfl, rfl, ?_, ?_⟩
  · intro path hE hop
    simp [scan_pages_loop, hE, hop]
  · intro path hE hlk
    simp [scan_pages_loop, hE, hlk]

/-- Witness for C4: a raising handler in the GUI leaves the empty page
list empty, and a CLI timeout ends the loop with the collected pages
untouched. -/
theorem c4_failed_acquisition_unchanged_witness :
    (scan_page ⟨Option.none, []⟩ "/tmp/d35" AcqResult.raised
      ⟨[], []⟩).1.scanned_images = [] ∧
    scan_pages_loop "/tmp/d35" [CliAttempt.timeout] 1 ["/tmp/d35/scan_001.png"]
      ⟨[], ["/tmp/d35"]⟩ = (["/tmp/d35/scan_001.png"], ⟨[], ["/tmp/d35"]⟩) := by
  have h := c4_failed_acquisition_unchanged ⟨Option.none, []⟩ "/tmp/d35"
    AcqResult.raised ⟨[], []⟩ rfl
  exact ⟨h.1, (h.2 "/tmp/d35" [] 1 ["/tmp/d35/scan_001.png"] ⟨[], ["/tmp/d35"]⟩).2.2.1⟩

/-- C3 counterexample: in the CLI, the very first successful acquisition
(attempt number 1, zero pages held before the append) is stored as
`scan_001.png`, not `scan_000.png` = `scan_<pad3 0>.png` as the claim's
"zero-padded count of pages held before the append" requires. -/
theorem c3_counterexample :
    (scan_pages "/tmp/d35" [CliAttempt.found "/tmp/d35/x.jpg"]
        ⟨[("/tmp/d35/x.jpg", ImgFormat.jpeg)], ["/tmp/d35"]⟩).1 =
      ["/tmp/d35/scan_001.png"] ∧
    ("/tmp/d35/scan_001.png" : String) ≠ "/tmp/d35/scan_" ++ pad3 0 ++ ".png" := by
  constructor
  · decide
  · decide

/-- C3 (amended): a successful acquisition appends exactly one canonical
PNG entry at a deterministic `scan_<NNN>.png` path in the scratch
directory — with `NNN` the zero-padded count of pages held before the
append in the GUI, but the zero-padded 1-based attempt number in the CLI
— re-encoding a non-`.png`-named source (deleting the distinct original)
and renaming an already-`.png`-named one. -/
theorem c3_canonical_naming (st : ScanSession) (newDir : String)
    (acq : AcqResult) (fs : FS)
    (hok : (scan_page st newDir acq fs).2.2 = true) :
    (∃ path, acq = AcqResult.ok path ∧
      (scan_page st newDir acq fs).1.scan_dir = some (st.scan_dir.getD newDir) ∧
      (scan_page st newDir acq fs).1.scanned_images =
        st.scanned_images ++
          [st.scan_dir.getD newDir ++ "/scan_" ++ pad3 st.scanned_images.length ++ ".png"] ∧
      (strEndsWith (strLower path) ".png" = false →
        (scan_page st newDir acq fs).2.1.lookup
          (st.scan_dir.getD newDir ++ "/scan_" ++ pad3 st.scanned_images.length ++ ".png")
          = some ImgFormat.png) ∧
      (strEndsWith (strLower path) ".png" = true →
        path ≠ st.scan_dir.getD newDir ++ "/scan_" ++ pad3 st.scanned_images.length ++ ".png" →
        ∃ f, fs.lookup path = some f ∧
          (scan_page st newDir acq fs).2.1.lookup
            (st.scan_dir.getD newDir ++ "/scan_" ++ pad3 st.scanned_images.length ++ ".png")
            = some f) ∧
      (path ≠ st.scan_dir.getD newDir ++ "/scan_" ++ pad3 st.scanned_images.length ++ ".png" →
        (scan_page st newDir acq fs).2.1.existsFile path = false)) ∧
    (∀ (temp_dir : String) (rest : List CliAttempt) (p : Nat)
        (acc : List String) (fs2 : FS) (path : String) (f : ImgFormat),
      strEndsWith (strLower path) ".png" = false →
      fs2.openImage path = some f →
      (scan_pages_loop temp_dir (CliAttempt.found path :: rest) p acc fs2).1 =
        acc ++ [temp_dir ++ "/scan_" ++ pad3 p ++ ".png"] ++
          (scan_pages_loop temp_dir rest (p + 1) []
            ((fs2.write (temp_dir ++ "/scan_" ++ pad3 p ++ ".png")
              ImgFormat.png).remove path)).1) := by
  refine ⟨scan_page_ok_spec st newDir acq fs hok, ?_⟩
  intro temp_dir rest p acc fs2 path f hE hop
  exact (scan_pages_found_step temp_dir rest p acc fs2 path).1 hE f hop

/-- Witness for C3 at concrete inputs: a GUI success converting a JPEG
into `scan_000.png`, and the CLI conjunct at a one-attempt run. -/
theorem c3_canonical_naming_witness :
    (∃ path, AcqResult.ok "/tmp/d35/a.jpg" = AcqResult.ok path ∧
      (scan_page ⟨some "/tmp/d35", []⟩ "/x" (AcqResult.ok "/tmp/d35/a.jpg")
        ⟨[("/tmp/d35/a.jpg", ImgFormat.jpeg)], ["/tmp/d35"]⟩).1.scan_dir =
          some ((some "/tmp/d35").getD "/x") ∧
      (scan_page ⟨some "/tmp/d35", []⟩ "/x" (AcqResult.ok "/tmp/d35/a.jpg")
        ⟨[("/tmp/d35/a.jpg", ImgFormat.jpeg)], ["/tmp/d35"]⟩).1.scanned_images =
        [] ++ [(some "/tmp/d35").getD "/x" ++ "/scan_" ++
          pad3 (List.length ([] : List String)) ++ ".png"] ∧
      (strEndsWith (strLower path) ".png" = false →
        (scan_page ⟨some "/tmp/d35", []⟩ "/x" (AcqResult.ok "/tmp/d35/a.jpg")
          ⟨[("/tmp/d35/a.jpg", ImgFormat.jpeg)], ["/tmp/d35"]⟩).2.1.lookup
          ((some "/tmp/d35").getD "/x" ++ "/scan_" ++
            pad3 (List.length ([] : List String)) ++ ".png")
          = some ImgFormat.png) ∧
      (strEndsWith (strLower path) ".png" = true →
        path ≠ (some "/tmp/d35").getD "/x" ++ "/scan_" ++
          pad3 (List.length ([] : List String)) ++ ".png" →
        ∃ f, FS.lookup ⟨[("/tmp/d35/a.jpg", ImgFormat.jpeg)], ["/tmp/d35"]⟩ path = some f ∧
          (scan_page ⟨some "/tmp/d35", []⟩ "/x" (AcqResult.ok "/tmp/d35/a.jpg")
            ⟨[("/tmp/d35/a.jpg", ImgFormat.jpeg)], ["/tmp/d35"]⟩).2.1.lookup
            ((some "/tmp/d35").getD "/x" ++ "/scan_" ++
              pad3 (List.length ([] : List String)) ++ ".png")
            = some f) ∧
      (path ≠ (some "/tmp/d35").getD "/x" ++ "/scan_" ++
          pad3 (List.length ([] : List String)) ++ ".png" →
        (scan_page ⟨some "/tmp/d35", []⟩ "/x" (AcqResult.ok "/tmp/d35/a.jpg")
          ⟨[("/tmp/d35/a.jpg", ImgFormat.jpeg)], ["/tmp/d35"]⟩).2.1.existsFile path = false)) ∧
    (∀ (temp_dir : String) (rest : List CliAttempt) (p : Nat)
        (acc : List String) (fs2 : FS) (path : String) (f : ImgFormat),
      strEndsWith (strLower path) ".png" = false →
      fs2.openImage path = some f →
      (scan_pages_loop temp_dir (CliAttempt.found path :: rest) p acc fs2).1 =
        acc ++ [temp_dir ++ "/scan_" ++ pad3 p ++ ".png"] ++
          (scan_pages_loop temp_dir rest (p + 1) []
            ((fs2.write (temp_dir ++ "/scan_" ++ pad3 p ++ ".png")
              ImgFormat.png).remove path)).1) :=
  c3_canonical_naming ⟨some "/tmp/d35", []⟩ "/x" (AcqResult.ok "/tmp/d35/a.jpg")
    ⟨[("/tmp/d35/a.jpg", ImgFormat.jpeg)], ["/tmp/d35"]⟩ (by decide)

/-- C9: the AppleScript acquisition path always falls through to the
manual drop-folder wait — a reported `scan_initiated`, a script failure,
and a subprocess timeout all continue into `handle_manual_import`; the
script step itself never raises out of the acquirer. -/
theorem c9_applescript_falls_through (script : ScriptResult)
    (desktop : Nat → List String) (scan_dir timestamp : String)
    (fmt : String → ImgFormat) (fs : FS) :
    handle_applescript_scan script desktop scan_dir timestamp fmt fs =
      handle_manual_import desktop scan_dir timestamp fmt fs := by
  cases script with
  | completed rc out => simp [handle_applescript_scan]
  | timedOut => rfl

/-- If no polling tick within the fuel window finds a new recognized
file, the manual-import loop returns nothing. -/
theorem manualLoop_eq_none (desktop : Nat → List String) (initial : List String) :
    ∀ (fuel t : Nat),
      (∀ i, i < fuel → newMatch initial (desktop (t + i)) = Option.none) →
      manualLoop desktop initial t fuel = Option.none := by
  intro fuel
  induction fuel with
  | zero => intro t _; rfl
  | succ fuel ih =>
    intro t hall
    have h0 : newMatch initial (desktop t) = Option.none := by
      have := hall 0 (Nat.succ_pos fuel)
      simpa using this
    have hrest : ∀ i, i < fuel → newMatch initial (desktop (t + 1 + i)) = Option.none := by
      intro i hi
      have := hall (i + 1) (by omega)
      have harith : t + (i + 1) = t + 1 + i := by omega
      rwa [harith] at this
    simp [manualLoop, h0, ih (t + 1) hrest]

/-- If tick `t + k` is the first tick (within the fuel window) at which a
new recognized file exists, the manual-import loop returns it. -/
theorem manualLoop_eq_some (desktop : Nat → List String) (initial : List String)
    (f : String) :
    ∀ (fuel k t : Nat), k < fuel →
      newMatch initial (desktop (t + k)) = some f →
      (∀ j, j < k → newMatch initial (desktop (t + j)) = Option.none) →
      manualLoop desktop initial t fuel = some f := by
  intro fuel
  induction fuel with
  | zero => intro k t hk; omega
  | succ fuel ih =>
    intro k t hk hhit hbefore
    cases k with
    | zero =>
      have h0 : newMatch initial (desktop t) = some f := by simpa using hhit
      simp [manualLoop, h0]
    | succ k =>
      have h0 : newMatch initial (desktop t) = Option.none := by
        have := hbefore 0 (Nat.succ_pos k)
        simpa using this
      have hhit' : newMatch initial (desktop (t + 1 + k)) = some f := by
        have harith : t + (k + 1) = t + 1 + k := by omega
        rwa [harith] at hhit
      have hbefore' : ∀ j, j < k → newMatch initial (desktop (t + 1 + j)) = Option.none := by
        intro j hj
        have := hbefore (j + 1) (by omega)
        have harith : t + (j + 1) = t + 1 + j := by omega
        rwa [harith] at this
      simp [manualLoop, h0]
      exact ih k (t + 1) (by omega) hhit' hbefore'

/-- C6: manual-handoff acquisition snapshots the drop-folder listing at
time 0, polls the listing once per second for at most 30 seconds, and
(a) when no tick 1..30 shows a new file with a recognized extension it
fails with `NoScanProduced`, touching nothing; (b) when tick `1 + k` is
the first to show one, the first such file `f` is copied into the scratch
directory as `temp_<timestamp>.<ext of f>` and that path is returned. -/
theorem c6_manual_handoff_polling (desktop : Nat → List String)
    (scan_dir timestamp : String) (fmt : String → ImgFormat) (fs : FS) :
    ((∀ t, t < 30 → newMatch (desktop 0) (desktop (1 + t)) = Option.none) →
      handle_manual_import desktop scan_dir timestamp fmt fs =
        (Except.error ScanError.NoScanProduced, fs)) ∧
    (∀ k f, k < 30 →
      newMatch (desktop 0) (desktop (1 + k)) = some f →
      (∀ j, j < k → newMatch (desktop 0) (desktop (1 + j)) = Option.none) →
      handle_manual_import desktop scan_dir timestamp fmt fs =
        (Except.ok (scan_dir ++ "/temp_" ++ timestamp ++ "." ++ lastDotSegment f),
         fs.write (scan_dir ++ "/temp_" ++ timestamp ++ "." ++ lastDotSegment f)
           (fmt f))) := by
  constructor
  · intro hnone
    have hloop := manualLoop_eq_none desktop (desktop 0) 30 1 hnone
    simp [handle_manual_import, hloop]
  · intro k f hk hhit hbefore
    have hloop := manualLoop_eq_some desktop (desktop 0) f 30 k 1 hk hhit hbefore
    simp [handle_manual_import, hloop]

/-- Witness for C6: a Desktop that never changes times out with
`NoScanProduced`; a Desktop where `Scan.JPG` appears at tick 3 yields a
copy at `temp_<timestamp>.JPG`. -/
theorem c6_manual_handoff_polling_witness :
    (handle_manual_import (fun _ => ["notes.txt"]) "/tmp/d35" "20240101"
        (fun _ => ImgFormat.jpeg) ⟨[], ["/tmp/d35"]⟩ =
      (Except.error ScanError.NoScanProduced, (⟨[], ["/tmp/d35"]⟩ : FS))) ∧
    (handle_manual_import
        (fun t => if t < 3 then ["notes.txt"] else ["notes.txt", "Scan.JPG"])
        "/tmp/d35" "20240101" (fun _ => ImgFormat.jpeg) ⟨[], ["/tmp/d35"]⟩ =
      (Except.ok ("/tmp/d35" ++ "/temp_" ++ "20240101" ++ "." ++ lastDotSegment "Scan.JPG"),
       FS.write ⟨[], ["/tmp/d35"]⟩
         ("/tmp/d35" ++ "/temp_" ++ "20240101" ++ "." ++ lastDotSegment "Scan.JPG")
         (ImgFormat.jpeg))) := by
  constructor
  · exact (c6_manual_handoff_polling (fun _ => ["notes.txt"]) "/tmp/d35" "20240101"
      (fun _ => ImgFormat.jpeg) ⟨[], ["/tmp/d35"]⟩).1 (by decide)
  · exact (c6_manual_handoff_polling
      (fun t => if t < 3 then ["notes.txt"] else ["notes.txt", "Scan.JPG"])
      "/tmp/d35" "20240101" (fun _ => ImgFormat.jpeg) ⟨[], ["/tmp/d35"]⟩).2
      2 "Scan.JPG" (by decide) (by decide) (by decide)

end D35
